import Mathlib

/-!
# Verification of the chat-statistics message-analysis pipeline

A shallow embedding of `src/chat_statistics/stats.py` (class `ChatStatistics`):
text reconstruction (`rebuild_msg`), question detection (`msg_has_question`),
responder ranking (`get_top_users`) and the word-cloud corpus construction
inside `generate_word_cloud`.

External collaborators (the hazm sentence segmenter `sent_tokenize`, word
tokenizer `word_tokenize` and `Normalizer`, and the wordcloud rasterizer) are
not part of the repository; they enter the embedding as function parameters,
with small concrete models (documented where they appear) used for witnesses
and counterexamples.
-/

/-- A sub-message fragment, as found in a Telegram-export `text` list: either a
plain string or a record that may carry a `text` field (all other fields of the
record are irrelevant to the code and are not modelled). -/
inductive Fragment where
  | str (s : String)
  | obj (text : Option String)
deriving DecidableEq, Repr

/-- The `text` field of a message: a plain string or an ordered list of
fragments. -/
inductive TextVal where
  | str (s : String)
  | arr (frags : List Fragment)
deriving DecidableEq, Repr

/-- A message of the loaded chat collection: `id`, `from` (sender), optional
`reply_to_message_id` and `text`.  `replyTo = some 0` models the field being
present with the falsy value 0; `none` models the field being absent. -/
structure Message where
  id : Int
  sender : String
  replyTo : Option Int
  text : TextVal
deriving DecidableEq, Repr

/-- Embedding of `ChatStatistics.rebuild_msg` (stats.py lines 34-43).  The
Python loop iterates over `sub_messages`; when that argument is a plain string,
Python iterates over its characters (each a one-character string appended by
`+=`), and when it is a list, string elements are appended directly while dict
elements contribute their `text` field when they have one and nothing
otherwise. -/
def rebuild_msg : TextVal → String
  | TextVal.str s => s.data.foldl (fun msg_text c => msg_text.push c) ""
  | TextVal.arr sub_messages =>
      sub_messages.foldl (fun msg_text sub_msg =>
        match sub_msg with
        | Fragment.str s => msg_text ++ s
        | Fragment.obj (some t) => msg_text ++ t
        | Fragment.obj none => msg_text) ""

/-- The textual contribution of one fragment, as the spec describes it: a plain
string contributes itself, a record contributes its `text` field when present
and the empty string otherwise. -/
def fragPiece : Fragment → String
  | Fragment.str s => s
  | Fragment.obj (some t) => t
  | Fragment.obj none => ""

/-- The flat text of a message: its `text` when already a plain string,
otherwise the reconstruction of its fragment list. -/
def flat_text (msg : Message) : String :=
  match msg.text with
  | TextVal.str s => s
  | TextVal.arr frags => rebuild_msg (TextVal.arr frags)

/-- Embedding of `ChatStatistics.msg_has_question` (stats.py lines 45-58),
parameterised by the external hazm sentence segmenter `st` (`sent_tokenize`).
If `msg['text']` is not a string it is first rewritten in place to
`rebuild_msg(msg['text'])` (the returned second component is the possibly
mutated message); the flat text is then segmented and the loop returns a truthy
value exactly when some sentence contains `'?'` or `'؟'` (Python's `c in s`
on a one-character pattern is character membership). -/
def msg_has_question (st : String → List String) (msg : Message) :
    Bool × Message :=
  let msg' :=
    match msg.text with
    | TextVal.str _ => msg
    | TextVal.arr frags => { msg with text := TextVal.str (rebuild_msg (TextVal.arr frags)) }
  let sentences := st (flat_text msg')
  (sentences.any (fun sentence => sentence.data.contains '?' || sentence.data.contains '؟'), msg')

/-- A model of the external hazm `sent_tokenize` collaborator adequate for the
single-sentence inputs used in witnesses and counterexamples: a nonempty string
with no internal sentence boundary is one sentence, and (as the spec records)
segmentation of the empty string yields the empty sequence. -/
def sentTokenize1 (s : String) : List String :=
  if s = "" then [] else [s]

/-- A message with empty plain-string text, used to witness claim C2. -/
def msgEmptyText : Message :=
  { id := 1, sender := "A", replyTo := none, text := TextVal.str "" }

/-- First pass of `ChatStatistics.get_top_users` (stats.py lines 66-70): the
`QuestionIndex`.  The Python `defaultdict(bool)` records `True` under a
message's id exactly when `msg_has_question` is truthy; we keep the list of ids
marked true, in collection order, and lookup is list membership (an id never
inserted reads as the default `False`). -/
def question_index (st : String → List String) (messages : List Message) : List Int :=
  (messages.filter (fun msg => (msg_has_question st msg).1)).map (fun msg => msg.id)

/-- The message collection after the first pass of `get_top_users`:
`msg_has_question` rewrites each non-string `text` in place to its flat
reconstruction. -/
def mutated_messages (st : String → List String) (messages : List Message) : List Message :=
  messages.map (fun msg => (msg_has_question st msg).2)

/-- The contribution of one message to the `users` list of the second pass of
`get_top_users` (stats.py lines 74-81): skipped when `reply_to_message_id` is
absent or falsy (`msg.get(...)` then tests false; for an integer field the only
falsy value is 0), skipped when the index holds no `True` for the target id,
otherwise the message's `from` sender. -/
def creditsOf (is_question : List Int) (msg : Message) : List String :=
  match msg.replyTo with
  | none => []
  | some r => if r == 0 then [] else if is_question.contains r then [msg.sender] else []

/-- The `users` list accumulated by the second pass of `get_top_users`
(stats.py lines 74-81), as the loop's fold. -/
def creditedSenders (is_question : List Int) (msgs : List Message) : List String :=
  msgs.foldl (fun users msg =>
    match msg.replyTo with
    | none => users
    | some r =>
        if r == 0 then users
        else if is_question.contains r then users ++ [msg.sender] else users) []

/-- `collections.Counter(users)`: per-sender counts, keyed in order of first
occurrence (Python dicts preserve insertion order). -/
def counterList (users : List String) : List (String × Nat) :=
  users.foldl (fun acc u =>
    if acc.any (fun p => p.1 == u) then
      acc.map (fun p => if p.1 == u then (p.1, p.2 + 1) else p)
    else acc ++ [(u, 1)]) []

/-- Stable insertion used by `Counter.most_common`'s descending sort
(`heapq.nlargest` is stable, like `sorted(..., reverse=True)`): a new entry is
placed before the first entry with a strictly smaller count and after entries
with greater-or-equal counts seen earlier. -/
def insertDesc (p : String × Nat) : List (String × Nat) → List (String × Nat)
  | [] => [p]
  | q :: qs => if q.2 ≤ p.2 then p :: q :: qs else q :: insertDesc p qs

/-- The stable descending-by-count sort behind `Counter.most_common`. -/
def sortCountDesc : List (String × Nat) → List (String × Nat)
  | [] => []
  | p :: ps => insertDesc p (sortCountDesc ps)

/-- Embedding of `ChatStatistics.get_top_users` (stats.py lines 60-83),
parameterised by the external sentence segmenter.  Returns the ranking
(`dict(Counter(users).most_common(top_n))`, an ordered association list) and
the message collection as mutated by the first pass.  `most_common(n)` with
`n ≤ 0` yields the empty list, matching `List.take n.toNat`. -/
def get_top_users (st : String → List String) (messages : List Message)
    (top_n : Int) : List (String × Nat) × List Message :=
  let is_question := question_index st messages
  let mutated := mutated_messages st messages
  let users := creditedSenders is_question mutated
  ((sortCountDesc (counterList users)).take top_n.toNat, mutated)

/-- Embedding of the corpus-construction loop of
`ChatStatistics.generate_word_cloud` (stats.py lines 91-97), parameterised by
the external hazm word tokenizer `tok` and the loaded stopword list.  Only
messages whose `text` is a plain string contribute (`type(msg['text']) is
str`); their tokens are filtered by raw membership in the stopword set and the
survivors are appended space-joined, with a leading space per message. -/
def buildCorpus (tok : String → List String) (stop_words : List String)
    (messages : List Message) : String :=
  messages.foldl (fun text_content msg =>
    match msg.text with
    | TextVal.str s =>
        text_content ++ " " ++
          String.intercalate " " ((tok s).filter (fun item => !stop_words.contains item))
    | TextVal.arr _ => text_content) ""

/-- The contribution of one message to the corpus of `generate_word_cloud`. -/
def corpusPiece (tok : String → List String) (stop_words : List String)
    (msg : Message) : String :=
  match msg.text with
  | TextVal.str s =>
      " " ++ String.intercalate " " ((tok s).filter (fun item => !stop_words.contains item))
  | TextVal.arr _ => ""

/-- Whether a message's `text` is a plain string (`type(msg['text']) is str`). -/
def isPlainText (msg : Message) : Bool :=
  match msg.text with
  | TextVal.str _ => true
  | TextVal.arr _ => false

/-- The stopword set as `ChatStatistics.__init__` stores it (stats.py lines
29-32): each (already stripped) line of the stopword file, normalized by the
external normalizer. -/
def loadStopwords (normalize : String → String) (lines : List String) : List String :=
  lines.map normalize

/-- Modelled from the spec: the Message Normalizer's "script-specific
canonicalization (character unification ...)" — the external hazm `Normalizer`
collaborator — restricted to the character unifications relevant here, mapping
the Arabic letters Yeh (U+064A) and Kaf (U+0643) to their Persian forms
(U+06CC, U+06A9). -/
def normalizeChars (s : String) : String :=
  String.mk (s.data.map (fun c => if c = 'ي' then 'ی' else if c = 'ك' then 'ک' else c))

/-- Splits a character list into maximal space-free words (accumulator holds
the current word reversed). -/
def wsTokens : List Char → List Char → List String
  | [], [] => []
  | [], cur => [String.mk cur.reverse]
  | c :: rest, cur =>
      if c = ' ' then
        (match cur with
         | [] => wsTokens rest []
         | _ => String.mk cur.reverse :: wsTokens rest [])
      else wsTokens rest (c :: cur)

/-- Modelled from the spec: the external word tokenizer collaborator
("tokenize the string into words"), restricted to whitespace-separated
words. -/
def wordTokenizeWS (s : String) : List String :=
  wsTokens s.data []

/-- The rendering step of `generate_word_cloud` (stats.py lines 99-113): the
corpus is normalized, reshaped, and then handed unconditionally to the
rasterizer (`WordCloud(...).generate(text_content)`) — there is no branch, so
the call always happens; `some s` records the rasterizer being invoked on
`s`. -/
def wordcloud_render_call (normalize reshape : String → String)
    (tok : String → List String) (stop_words : List String)
    (messages : List Message) : Option String :=
  some (reshape (normalize (buildCorpus tok stop_words messages)))

/-- The single-message collection with text the Arabic-script letter Kaf
`"ك"`, whose normalization `"ک"` is a loaded stopword; failing input for
claim C4. -/
def msgsKaf : List Message :=
  [{ id := 1, sender := "A", replyTo := none, text := TextVal.str "ك" }]

/-- The single-message collection whose only token is the stopword `"the"`;
the all-tokens-are-stopwords input for claim C7. -/
def msgsAllStop : List Message :=
  [{ id := 1, sender := "A", replyTo := none, text := TextVal.str "the" }]

/-- A collection whose single message has fragmented (non-string) text; input
showing the order dependence refuting claim C6. -/
def msgsFragmented : List Message :=
  [{ id := 1, sender := "A", replyTo := none,
     text := TextVal.arr [Fragment.str "hello"] }]

/-- The all-plain-text collection used to witness claim C6. -/
def msgsPlain : List Message :=
  [{ id := 1, sender := "A", replyTo := none, text := TextVal.str "hello" }]

/-- A collection with no question and no id 5; backdrop for the claim C1
witness. -/
def msgsNoQuestion : List Message :=
  [{ id := 1, sender := "A", replyTo := none, text := TextVal.str "hi" }]

/-- A message replying to the id 5, absent from `msgsNoQuestion`. -/
def msgReplyFive : Message :=
  { id := 2, sender := "B", replyTo := some 5, text := TextVal.str "yes" }

/-- The collection in which sender "A" asks a question (id 1) and the same
sender "A" replies to it; counterexample input for claim C5. -/
def msgsSelfReply : List Message :=
  [{ id := 1, sender := "A", replyTo := none, text := TextVal.str "x?" },
   { id := 2, sender := "A", replyTo := some 1, text := TextVal.str "yes" }]

/-- The self-reply message of `msgsSelfReply`. -/
def msgSelfReply : Message :=
  { id := 2, sender := "A", replyTo := some 1, text := TextVal.str "yes" }

/-- A question message with id 0, preceding the falsy reply in the claim C10
witness. -/
def msgsQuestionZero : List Message :=
  [{ id := 0, sender := "Q", replyTo := none, text := TextVal.str "x?" }]

/-- A message whose `reply_to_message_id` is present but 0 (falsy). -/
def msgReplyZero : Message :=
  { id := 2, sender := "B", replyTo := some 0, text := TextVal.str "y" }

lemma string_foldl_push (l : List Char) (acc : String) :
    l.foldl (fun msg_text c => msg_text.push c) acc = acc ++ String.mk l := by
  induction l generalizing acc with
  | nil =>
      apply String.ext
      simp
  | cons c cs ih =>
      rw [List.foldl_cons, ih]
      apply String.ext
      simp [String.push]

lemma rebuild_msg_arr_foldl (frags : List Fragment) (acc : String) :
    frags.foldl (fun msg_text sub_msg =>
        match sub_msg with
        | Fragment.str s => msg_text ++ s
        | Fragment.obj (some t) => msg_text ++ t
        | Fragment.obj none => msg_text) acc
      = acc ++ String.join (frags.map fragPiece) := by
  induction frags generalizing acc with
  | nil =>
      apply String.ext
      simp [String.data_join]
  | cons f fs ih =>
      rw [List.foldl_cons, ih]
      cases f with
      | str s =>
          apply String.ext
          simp [String.data_join, fragPiece, List.append_assoc]
      | obj t =>
          cases t with
          | none =>
              apply String.ext
              simp [String.data_join, fragPiece]
          | some t =>
              apply String.ext
              simp [String.data_join, fragPiece, List.append_assoc]

/-- Claim C8: `rebuild_msg` is idempotent — applied to a plain string `s` (its
own possible output) it returns `s` unchanged, because Python iteration over a
string yields its characters, which are re-concatenated in order. -/
theorem claim_C8 (s : String) : rebuild_msg (TextVal.str s) = s := by
  rw [rebuild_msg, string_foldl_push]
  apply String.ext
  simp

/-- Claim C9: on a fragment list, `rebuild_msg` returns the in-order,
separator-free concatenation of every plain-string fragment and of the `text`
field of every record fragment that has one (records without `text` contribute
the empty string); in particular `["Hello ", {"text": "world"}]` rebuilds to
`"Hello world"`. -/
theorem claim_C9 (frags : List Fragment) :
    rebuild_msg (TextVal.arr frags) = String.join (frags.map fragPiece)
    ∧ rebuild_msg (TextVal.arr [Fragment.str "Hello ", Fragment.obj (some "world")])
        = "Hello world" := by
  constructor
  · rw [rebuild_msg, rebuild_msg_arr_foldl]
    apply String.ext
    simp
  · rfl

lemma flat_text_mutated (st : String → List String) (msg : Message) :
    flat_text (msg_has_question st msg).2 = flat_text msg := by
  cases h : msg.text with
  | str s => simp [msg_has_question, flat_text, h]
  | arr frags => simp [msg_has_question, flat_text, h]

lemma msg_has_question_fst (st : String → List String) (msg : Message) :
    (msg_has_question st msg).1
      = (st (flat_text msg)).any
          (fun sentence => sentence.data.contains '?' || sentence.data.contains '؟') := by
  cases h : msg.text with
  | str s => simp [msg_has_question, flat_text, h]
  | arr frags => simp [msg_has_question, flat_text, h]

/-- Claim C2: `msg_has_question` returns true iff some sentence of the
sentence-segmented flat text contains `'?'` or `'؟'`; and whenever segmentation
of the empty string yields the empty sequence (as hazm's does), a message with
empty flat text is never a question. -/
theorem claim_C2 (st : String → List String) (msg : Message) (hst : st "" = []) :
    ((msg_has_question st msg).1 = true
      ↔ ∃ sentence ∈ st (flat_text msg), '?' ∈ sentence.data ∨ '؟' ∈ sentence.data)
    ∧ (flat_text msg = "" → (msg_has_question st msg).1 = false) := by
  constructor
  · rw [msg_has_question_fst, List.any_eq_true]
    constructor
    · rintro ⟨sentence, hmem, hp⟩
      refine ⟨sentence, hmem, ?_⟩
      rcases Bool.or_eq_true_iff.mp hp with h | h
      · exact Or.inl (List.elem_iff.mp h)
      · exact Or.inr (List.elem_iff.mp h)
    · rintro ⟨sentence, hmem, hp⟩
      refine ⟨sentence, hmem, ?_⟩
      rcases hp with h | h
      · exact Bool.or_eq_true_iff.mpr (Or.inl (List.elem_iff.mpr h))
      · exact Bool.or_eq_true_iff.mpr (Or.inr (List.elem_iff.mpr h))
  · intro hempty
    rw [msg_has_question_fst, hempty, hst]
    rfl

theorem claim_C2_witness :
    (((msg_has_question sentTokenize1 msgEmptyText).1 = true
        ↔ ∃ sentence ∈ sentTokenize1 (flat_text msgEmptyText),
            '?' ∈ sentence.data ∨ '؟' ∈ sentence.data)
      ∧ (flat_text msgEmptyText = ""
          → (msg_has_question sentTokenize1 msgEmptyText).1 = false)) :=
  claim_C2 sentTokenize1 msgEmptyText rfl

lemma creditedSenders_foldl (is_question : List Int) (msgs : List Message)
    (acc : List String) :
    msgs.foldl (fun users msg =>
      match msg.replyTo with
      | none => users
      | some r =>
          if r == 0 then users
          else if is_question.contains r then users ++ [msg.sender] else users) acc
      = acc ++ (msgs.map (creditsOf is_question)).flatten := by
  induction msgs generalizing acc with
  | nil => simp
  | cons msg rest ih =>
      rw [List.foldl_cons, ih, List.map_cons, List.flatten_cons]
      cases h : msg.replyTo with
      | none => simp [creditsOf, h]
      | some r =>
          by_cases h0 : r == 0
          · simp [creditsOf, h, h0]
          · by_cases hq : r ∈ is_question
            · simp [creditsOf, h, h0, hq, List.append_assoc]
            · simp [creditsOf, h, h0, hq]

lemma creditedSenders_eq_flatten (is_question : List Int) (msgs : List Message) :
    creditedSenders is_question msgs = (msgs.map (creditsOf is_question)).flatten := by
  rw [creditedSenders, creditedSenders_foldl]
  simp

lemma mem_insertDesc {p q : String × Nat} {l : List (String × Nat)}
    (h : q ∈ insertDesc p l) : q = p ∨ q ∈ l := by
  induction l with
  | nil => simpa [insertDesc] using h
  | cons x xs ih =>
      rw [insertDesc] at h
      by_cases hc : x.2 ≤ p.2
      · rw [if_pos hc] at h
        rcases List.mem_cons.mp h with h | h
        · exact Or.inl h
        · exact Or.inr h
      · rw [if_neg hc] at h
        rcases List.mem_cons.mp h with h | h
        · exact Or.inr (List.mem_cons.mpr (Or.inl h))
        · rcases ih h with h | h
          · exact Or.inl h
          · exact Or.inr (List.mem_cons.mpr (Or.inr h))

lemma insertDesc_perm (p : String × Nat) (l : List (String × Nat)) :
    List.Perm (insertDesc p l) (p :: l) := by
  induction l with
  | nil => simp [insertDesc]
  | cons x xs ih =>
      rw [insertDesc]
      by_cases hc : x.2 ≤ p.2
      · rw [if_pos hc]
      · rw [if_neg hc]
        exact (List.Perm.cons x ih).trans (List.Perm.swap p x xs)

lemma insertDesc_pairwise {p : String × Nat} {l : List (String × Nat)}
    (h : l.Pairwise (fun a b => b.2 ≤ a.2)) :
    (insertDesc p l).Pairwise (fun a b => b.2 ≤ a.2) := by
  induction l with
  | nil => simp [insertDesc]
  | cons x xs ih =>
      rw [insertDesc]
      rcases List.pairwise_cons.mp h with ⟨hx, hxs⟩
      by_cases hc : x.2 ≤ p.2
      · rw [if_pos hc]
        refine List.pairwise_cons.mpr ⟨?_, h⟩
        intro q hq
        rcases List.mem_cons.mp hq with h | h
        · exact h ▸ hc
        · exact le_trans (hx q h) hc
      · rw [if_neg hc]
        refine List.pairwise_cons.mpr ⟨?_, ih hxs⟩
        intro q hq
        rcases mem_insertDesc hq with h | h
        · exact h ▸ le_of_not_le hc
        · exact hx q h

lemma insertDesc_filter_eq (p : String × Nat) (l : List (String × Nat)) (c : Nat)
    (hc : p.2 = c) :
    (insertDesc p l).filter (fun q => q.2 == c) = p :: l.filter (fun q => q.2 == c) := by
  induction l with
  | nil => simp [insertDesc, hc]
  | cons x xs ih =>
      rw [insertDesc]
      by_cases hle : x.2 ≤ p.2
      · rw [if_pos hle]
        simp [hc]
      · rw [if_neg hle]
        have hx : (x.2 == c) = false := by
          refine beq_eq_false_iff_ne.mpr ?_
          intro hxc
          exact hle (le_of_eq (hxc.trans hc.symm))
        rw [List.filter_cons, hx, ih, List.filter_cons, hx]
        simp

lemma insertDesc_filter_ne (p : String × Nat) (l : List (String × Nat)) (c : Nat)
    (hc : ¬ p.2 = c) :
    (insertDesc p l).filter (fun q => q.2 == c) = l.filter (fun q => q.2 == c) := by
  induction l with
  | nil => simp [insertDesc, hc]
  | cons x xs ih =>
      rw [insertDesc]
      by_cases hle : x.2 ≤ p.2
      · rw [if_pos hle]
        simp [List.filter_cons, beq_eq_false_iff_ne.mpr hc]
      · rw [if_neg hle]
        rw [List.filter_cons, List.filter_cons, ih]

lemma sortCountDesc_perm (l : List (String × Nat)) :
    List.Perm (sortCountDesc l) l := by
  induction l with
  | nil => simp [sortCountDesc]
  | cons p ps ih =>
      rw [sortCountDesc]
      exact (insertDesc_perm p (sortCountDesc ps)).trans (List.Perm.cons p ih)

lemma sortCountDesc_pairwise (l : List (String × Nat)) :
    (sortCountDesc l).Pairwise (fun a b => b.2 ≤ a.2) := by
  induction l with
  | nil => simp [sortCountDesc]
  | cons p ps ih =>
      rw [sortCountDesc]
      exact insertDesc_pairwise ih

lemma sortCountDesc_filter (l : List (String × Nat)) (c : Nat) :
    (sortCountDesc l).filter (fun q => q.2 == c) = l.filter (fun q => q.2 == c) := by
  induction l with
  | nil => rfl
  | cons p ps ih =>
      rw [sortCountDesc]
      by_cases hc : p.2 = c
      · rw [insertDesc_filter_eq p _ c hc, ih, List.filter_cons]
        simp [hc]
      · rw [insertDesc_filter_ne p _ c hc, ih, List.filter_cons]
        simp [hc]

lemma buildCorpus_foldl (tok : String → List String) (stop_words : List String)
    (messages : List Message) (acc : String) :
    messages.foldl (fun text_content msg =>
      match msg.text with
      | TextVal.str s =>
          text_content ++ " " ++
            String.intercalate " " ((tok s).filter (fun item => !stop_words.contains item))
      | TextVal.arr _ => text_content) acc
      = acc ++ String.join (messages.map (corpusPiece tok stop_words)) := by
  induction messages generalizing acc with
  | nil =>
      apply String.ext
      simp [String.data_join]
  | cons msg rest ih =>
      rw [List.foldl_cons, ih]
      cases h : msg.text with
      | str s =>
          apply String.ext
          simp [String.data_join, corpusPiece, h, List.append_assoc]
      | arr frags =>
          apply String.ext
          simp [String.data_join, corpusPiece, h]

lemma buildCorpus_eq_join (tok : String → List String) (stop_words : List String)
    (messages : List Message) :
    buildCorpus tok stop_words messages
      = String.join (messages.map (corpusPiece tok stop_words)) := by
  rw [buildCorpus, buildCorpus_foldl]
  apply String.ext
  simp [String.data_join]

lemma string_join_cons (s : String) (l : List String) :
    String.join (s :: l) = s ++ String.join l := by
  apply String.ext
  simp [String.data_join]

lemma corpusPiece_all_stop (tok : String → List String) (stop_words : List String)
    (msg : Message)
    (h : ∀ s, msg.text = TextVal.str s → ∀ t ∈ tok s, stop_words.contains t = true) :
    corpusPiece tok stop_words msg = if isPlainText msg then " " else "" := by
  cases msg with
  | mk i sndr rt tx =>
      cases tx with
      | str s =>
          have hfilter : (tok s).filter (fun item => !stop_words.contains item) = [] := by
            rw [List.filter_eq_nil_iff]
            intro t ht
            rw [h s rfl t ht]
            simp
          show (" " ++ String.intercalate " "
              ((tok s).filter (fun item => !stop_words.contains item))) = _
          rw [hfilter]
          rfl
      | arr frags => rfl

lemma buildCorpus_all_stop (tok : String → List String) (stop_words : List String) :
    ∀ messages : List Message,
      (∀ msg ∈ messages, ∀ s, msg.text = TextVal.str s → ∀ t ∈ tok s, stop_words.contains t = true) →
      buildCorpus tok stop_words messages
        = String.mk (List.replicate (messages.countP isPlainText) ' ') := by
  intro messages h
  rw [buildCorpus_eq_join]
  induction messages with
  | nil => rfl
  | cons msg rest ih =>
      have hmsg := corpusPiece_all_stop tok stop_words msg
        (h msg (List.mem_cons_self msg rest))
      have hrest := ih (fun m hm => h m (List.mem_cons_of_mem msg hm))
      rw [List.map_cons, string_join_cons, hmsg, hrest]
      cases hp : isPlainText msg with
      | true =>
          rw [List.countP_cons_of_pos _ _ hp, if_pos rfl]
          apply String.ext
          simp [List.replicate_succ]
      | false =>
          rw [List.countP_cons_of_neg _ _ (by simp [hp])]
          rw [if_neg (by simp [hp])]
          apply String.ext
          simp

/-- Claim C4 (code bug): stopwords are normalized when loaded, but the corpus
filter tests the raw token (`item not in self.stop_words` before any
normalization of `item`), so a token equal to a stopword only after
normalization survives in the corpus.  With the stopword file line `"ك"`, the
stored stopword is `"ک"`, the message token `"ك"` normalizes to that stopword,
yet the built corpus still contains `"ك"`. -/
theorem claim_C4_failing_input :
    loadStopwords normalizeChars ["ك"] = ["ک"]
    ∧ normalizeChars "ك" = "ک"
    ∧ (loadStopwords normalizeChars ["ك"]).contains (normalizeChars "ك") = true
    ∧ buildCorpus wordTokenizeWS (loadStopwords normalizeChars ["ك"]) msgsKaf = " ك" := by
  refine ⟨rfl, rfl, by decide, by decide⟩

/-- Counterexample to claim C7 as stated: on an input where every token is a
stopword, `buildCorpus` yields the one-space string `" "` (a leading space per
plain-string message), not the empty string, and the rasterizer is still
invoked — there is no empty-corpus check and no distinct failure in the
code. -/
theorem claim_C7_counterexample :
    buildCorpus wordTokenizeWS ["the"] msgsAllStop = " "
    ∧ ¬ buildCorpus wordTokenizeWS ["the"] msgsAllStop = ""
    ∧ wordcloud_render_call (fun s => s) (fun s => s) wordTokenizeWS ["the"] msgsAllStop
        = some " " := by
  refine ⟨by decide, by decide, by decide⟩

/-- Claim C7 (amended): when every token of every plain-string message is a
stopword, `buildCorpus` yields a whitespace-only string — one space per
plain-string message, so empty only if no message has plain-string text — and
`generate_word_cloud` performs no empty-corpus check: the rasterizer is
invoked unconditionally on the normalized, reshaped corpus. -/
theorem claim_C7 (tok : String → List String) (stop_words : List String)
    (messages : List Message) (normalize reshape : String → String)
    (h : ∀ msg ∈ messages, ∀ s, msg.text = TextVal.str s →
        ∀ t ∈ tok s, stop_words.contains t = true) :
    buildCorpus tok stop_words messages
        = String.mk (List.replicate (messages.countP isPlainText) ' ')
    ∧ wordcloud_render_call normalize reshape tok stop_words messages
        = some (reshape (normalize (buildCorpus tok stop_words messages))) :=
  ⟨buildCorpus_all_stop tok stop_words messages h, rfl⟩

theorem claim_C7_witness :
    buildCorpus wordTokenizeWS ["the"] msgsAllStop
        = String.mk (List.replicate (msgsAllStop.countP isPlainText) ' ')
    ∧ wordcloud_render_call (fun s => s) (fun s => s) wordTokenizeWS ["the"] msgsAllStop
        = some ((fun s : String => s) ((fun s : String => s)
            (buildCorpus wordTokenizeWS ["the"] msgsAllStop))) :=
  claim_C7 wordTokenizeWS ["the"] msgsAllStop (fun s => s) (fun s => s)
    (by
      intro msg hm s hs t ht
      simp only [msgsAllStop, List.mem_singleton] at hm
      subst hm
      injection hs with hs'
      subst hs'
      have htok : wordTokenizeWS "the" = ["the"] := by decide
      rw [htok, List.mem_singleton] at ht
      subst ht
      decide)

/-- Counterexample to claim C6 as stated: on a collection with a fragmented
message, the corpus built before `get_top_users` runs is empty (non-string
texts are skipped), but `get_top_users` caches the reconstructed flat string
onto the message, after which the same corpus construction includes it — so
the corpus depends on whether the ranking ran first. -/
theorem claim_C6_counterexample :
    buildCorpus wordTokenizeWS [] msgsFragmented = ""
    ∧ buildCorpus wordTokenizeWS []
        ((get_top_users sentTokenize1 msgsFragmented 10).2) = " hello"
    ∧ ¬ ("" : String) = " hello" := by
  refine ⟨by decide, by decide, by decide⟩

/-- Claim C6 (amended): `generate_word_cloud` reads but never writes the
message collection, while `get_top_users` rewrites fragmented `text` fields in
place; so the two runs are order-independent exactly on collections whose
messages all have plain-string text — there `get_top_users` leaves the
collection unchanged and the corpus is the same whether or not it ran
first. -/
theorem claim_C6 (st : String → List String) (tok : String → List String)
    (stop_words : List String) (messages : List Message) (top_n : Int)
    (h : ∀ msg ∈ messages, ∃ s, msg.text = TextVal.str s) :
    (get_top_users st messages top_n).2 = messages
    ∧ buildCorpus tok stop_words ((get_top_users st messages top_n).2)
        = buildCorpus tok stop_words messages := by
  have hmut : mutated_messages st messages = messages := by
    rw [mutated_messages]
    have hid : ∀ m ∈ messages, (msg_has_question st m).2 = m := by
      intro m hm
      rcases h m hm with ⟨s, hs⟩
      simp [msg_has_question, hs]
    rw [List.map_congr_left hid, List.map_id']
  have h2 : (get_top_users st messages top_n).2 = messages := by
    rw [get_top_users]
    exact hmut
  exact ⟨h2, by rw [h2]⟩

theorem claim_C6_witness :
    (get_top_users sentTokenize1 msgsPlain 10).2 = msgsPlain
    ∧ buildCorpus wordTokenizeWS [] ((get_top_users sentTokenize1 msgsPlain 10).2)
        = buildCorpus wordTokenizeWS [] msgsPlain :=
  claim_C6 sentTokenize1 wordTokenizeWS [] msgsPlain 10
    (fun msg hm => by
      rcases List.mem_singleton.mp hm with h
      exact ⟨"hello", by rw [h]⟩)

/-- Claim C1: the ranking counts come only from per-message credits
(`creditsOf`), a message replying to an id the QuestionIndex does not mark as
a question contributes no credit at all, and an id absent from the loaded
collection is never marked in the index (the `defaultdict(bool)` lookup for an
unknown id yields false). -/
theorem claim_C1 (st : String → List String) (messages : List Message)
    (top_n : Int) (msg : Message) (r : Int) (hr : msg.replyTo = some r) :
    ((get_top_users st messages top_n).1
        = (sortCountDesc (counterList
            (((mutated_messages st messages).map
              (creditsOf (question_index st messages))).flatten))).take top_n.toNat)
    ∧ ((question_index st messages).contains r = false
        → creditsOf (question_index st messages) msg = [])
    ∧ ((∀ m ∈ messages, ¬ m.id = r)
        → (question_index st messages).contains r = false) := by
  refine ⟨?_, ?_, ?_⟩
  · rw [get_top_users]
    rw [creditedSenders_eq_flatten]
  · intro h
    have hnot : r ∉ question_index st messages := by simpa using h
    simp [creditsOf, hr, hnot]
  · intro h
    cases hcon : (question_index st messages).contains r with
    | false => rfl
    | true =>
        exfalso
        have hmem : r ∈ question_index st messages := List.elem_iff.mp hcon
        rw [question_index] at hmem
        rcases List.mem_map.mp hmem with ⟨m, hm, hid⟩
        exact h m (List.mem_of_mem_filter hm) hid

theorem claim_C1_witness :
    creditsOf (question_index sentTokenize1 msgsNoQuestion) msgReplyFive = [] :=
  (claim_C1 sentTokenize1 msgsNoQuestion 10 msgReplyFive 5 rfl).2.1 (by decide)

/-- Claim C3: the ranking has at most `top_n` entries, is sorted by descending
count, is empty for `top_n ≤ 0`, is the whole sorted aggregation when `top_n`
bounds the number of distinct credited senders, and the sort is a permutation
of the aggregation that is stable: within each count value the order is
exactly the first-encountered aggregation order of `counterList`. -/
theorem claim_C3 (st : String → List String) (messages : List Message)
    (top_n : Int) :
    (get_top_users st messages top_n).1.length ≤ top_n.toNat
    ∧ (get_top_users st messages top_n).1.Pairwise (fun a b => b.2 ≤ a.2)
    ∧ (top_n ≤ 0 → (get_top_users st messages top_n).1 = [])
    ∧ ((counterList (creditedSenders (question_index st messages)
          (mutated_messages st messages))).length ≤ top_n.toNat
        → (get_top_users st messages top_n).1
            = sortCountDesc (counterList (creditedSenders (question_index st messages)
                (mutated_messages st messages))))
    ∧ List.Perm
        (sortCountDesc (counterList (creditedSenders (question_index st messages)
          (mutated_messages st messages))))
        (counterList (creditedSenders (question_index st messages)
          (mutated_messages st messages)))
    ∧ (∀ c, (sortCountDesc (counterList (creditedSenders (question_index st messages)
          (mutated_messages st messages)))).filter (fun q => q.2 == c)
        = (counterList (creditedSenders (question_index st messages)
            (mutated_messages st messages))).filter (fun q => q.2 == c)) := by
  refine ⟨?_, ?_, ?_, ?_, ?_, ?_⟩
  · simp only [get_top_users]
    rw [List.length_take]
    exact Nat.min_le_left _ _
  · simp only [get_top_users]
    exact List.Pairwise.sublist (List.take_sublist _ _) (sortCountDesc_pairwise _)
  · intro h
    simp only [get_top_users]
    rw [Int.toNat_of_nonpos h]
    exact List.take_zero _
  · intro h
    simp only [get_top_users]
    apply List.take_of_length_le
    rw [(sortCountDesc_perm _).length_eq]
    exact h
  · exact sortCountDesc_perm _
  · exact fun c => sortCountDesc_filter _ c

theorem claim_C3_witness :
    (0 : Int) ≤ 0 ∧ (get_top_users sentTokenize1 msgsNoQuestion 0).1 = [] :=
  ⟨le_refl 0, (claim_C3 sentTokenize1 msgsNoQuestion 0).2.2.1 (le_refl 0)⟩

/-- Counterexample to claim C5 as stated: the code never compares the replying
sender with the question's sender, so "A", who replies to their own question,
is credited — `get_top_users` ranks "A" with count 1 although the only reply
in the collection answers "A"'s own question. -/
theorem claim_C5_counterexample :
    msgsSelfReply
      = [{ id := 1, sender := "A", replyTo := none, text := TextVal.str "x?" },
         { id := 2, sender := "A", replyTo := some 1, text := TextVal.str "yes" }]
    ∧ (get_top_users sentTokenize1 msgsSelfReply 10).1 = [("A", 1)] := by
  refine ⟨rfl, by decide⟩

/-- Claim C5 (amended): a reply to a question is credited to the replying
message's sender unconditionally — the code never inspects who asked the
question, so replies to one's own question are credited exactly like replies
to the questions of others. -/
theorem claim_C5 (is_question : List Int) (msg : Message) (r : Int)
    (hr : msg.replyTo = some r) (h0 : ¬ r = 0)
    (hq : is_question.contains r = true) :
    creditsOf is_question msg = [msg.sender] := by
  have hmem : r ∈ is_question := List.elem_iff.mp hq
  simp [creditsOf, hr, h0, hmem]

theorem claim_C5_witness :
    ¬ (1 : Int) = 0 ∧ creditsOf [1] msgSelfReply = ["A"] :=
  ⟨by decide, claim_C5 [1] msgSelfReply 1 rfl (by decide) (by decide)⟩

lemma msg_has_question_replyTo_none (st : String → List String) (msg : Message) :
    msg_has_question st { msg with replyTo := none }
      = ((msg_has_question st msg).1, { (msg_has_question st msg).2 with replyTo := none }) := by
  cases msg with
  | mk i sndr rt tx =>
      cases tx with
      | str s => simp [msg_has_question, flat_text]
      | arr frags => simp [msg_has_question, flat_text]

lemma msg_has_question_replyTo (st : String → List String) (msg : Message) :
    (msg_has_question st msg).2.replyTo = msg.replyTo := by
  cases msg with
  | mk i sndr rt tx =>
      cases tx with
      | str s => simp [msg_has_question]
      | arr frags => simp [msg_has_question]

lemma msg_has_question_id (st : String → List String) (msg : Message) :
    (msg_has_question st msg).2.id = msg.id := by
  cases msg with
  | mk i sndr rt tx =>
      cases tx with
      | str s => simp [msg_has_question]
      | arr frags => simp [msg_has_question]

/-- Claim C10: a present-but-falsy `reply_to_message_id` (the integer 0, which
fails the truthiness guard `if not msg.get('reply_to_message_id')`) earns no
credit even when a question with id 0 exists, and the whole ranking is the
same as if the reply link were absent. -/
theorem claim_C10 (st : String → List String) (is_question : List Int)
    (pre post : List Message) (msg : Message) (top_n : Int)
    (h : msg.replyTo = some 0) :
    creditsOf is_question msg = []
    ∧ (get_top_users st (pre ++ msg :: post) top_n).1
        = (get_top_users st (pre ++ { msg with replyTo := none } :: post) top_n).1 := by
  constructor
  · simp [creditsOf, h]
  · have hfst : (msg_has_question st { msg with replyTo := none }).1
        = (msg_has_question st msg).1 := by
      rw [msg_has_question_replyTo_none]
    have hid : ({ msg with replyTo := none } : Message).id = msg.id := rfl
    have hidx : question_index st (pre ++ { msg with replyTo := none } :: post)
        = question_index st (pre ++ msg :: post) := by
      rw [question_index, question_index, List.filter_append, List.filter_append,
        List.filter_cons, List.filter_cons, hfst]
      cases hb : (msg_has_question st msg).1 with
      | true => simp
      | false => simp
    have hmutreply : (msg_has_question st msg).2.replyTo = some 0 := by
      rw [msg_has_question_replyTo]
      exact h
    have husers : creditedSenders (question_index st (pre ++ msg :: post))
        (mutated_messages st (pre ++ { msg with replyTo := none } :: post))
        = creditedSenders (question_index st (pre ++ msg :: post))
            (mutated_messages st (pre ++ msg :: post)) := by
      rw [creditedSenders_eq_flatten, creditedSenders_eq_flatten,
        mutated_messages, mutated_messages,
        List.map_append, List.map_append, List.map_cons, List.map_cons,
        List.map_append, List.map_append, List.map_cons, List.map_cons,
        List.flatten_append, List.flatten_append, List.flatten_cons, List.flatten_cons,
        msg_has_question_replyTo_none]
      have hmid1 : creditsOf (question_index st (pre ++ msg :: post))
          ({ (msg_has_question st msg).2 with replyTo := none }) = [] := by
        simp [creditsOf]
      have hmid2 : creditsOf (question_index st (pre ++ msg :: post))
          (msg_has_question st msg).2 = [] := by
        simp [creditsOf, hmutreply]
      rw [hmid1, hmid2]
    simp only [get_top_users]
    rw [hidx, husers]

theorem claim_C10_witness :
    creditsOf [0] msgReplyZero = []
    ∧ (get_top_users sentTokenize1 (msgsQuestionZero ++ msgReplyZero :: []) 10).1
        = (get_top_users sentTokenize1
            (msgsQuestionZero ++ { msgReplyZero with replyTo := none } :: []) 10).1 :=
  claim_C10 sentTokenize1 [0] msgsQuestionZero [] msgReplyZero 10 rfl
